import Mathlib

/-!
Shallow embedding of the 2048 rule engine of `src/utils/grid.py` (class `Grid`,
default `grid_size = 4`) together with the move-selection step of
`src/mcts_bot/monte_carlo.py`.

Modelling conventions:
* A board is a function `Fin 4 → Fin 4 → ℤ`.  The numpy array has dtype
  `int16`, so the doubling `self.grid[i, j] *= 2` performed during a merge
  wraps (`wrap16`).  The score is declared `int`, but the in-place update
  `self.score += self.grid[i, j]` adds an `np.int16` scalar, which under
  numpy's promotion rules (value-based casting in 1.x as well as NEP 50)
  turns the score into an `np.int16` from the first merge of a game onward;
  every subsequent merge update therefore wraps as well.  The embedding
  applies `wrap16` to the score at every merge update (for the scores the
  program can actually hold — 0 or an int16 value — this is exactly the
  numpy behaviour); a move that fires no merge leaves the score untouched,
  as in the source.
* `np.random` calls are modelled by explicit parameters: the list of chosen
  indices into the row-major list of empty cells (`np.random.choice(range(k),
  n, replace=False)`), which raises `ValueError` (caught, making the whole
  call a no-op) exactly when `n` exceeds the number of empty cells, and a
  stream of drawn tile values for `np.random.choice((2, 4))`.
* `shift_grid` builds a per-row boolean mask `count-of-nonzeros > [3,2,1,0]`
  (reversed for LEFT) and moves the nonzero entries, in row-major order, onto
  the masked slots; since the mask has the same number of set bits per row as
  the row has nonzero cells, this is exactly a stable per-row compaction:
  the nonzero values keep their order and are packed against one edge.
-/

namespace Pygame2048

/-- A 4x4 board of cell values, as stored in the numpy int16 array. -/
abbrev Grid : Type := Fin 4 → Fin 4 → ℤ

/-- Signed 16-bit wrap-around, applied where the numpy int16 cell is doubled. -/
def wrap16 (x : ℤ) : ℤ := (x + 32768) % 65536 - 32768

/-- The state owned by class `Grid`: the board and the score accumulator. -/
structure GridState where
  grid : Grid
  score : ℤ

/-- The all-zero board produced by `np.zeros((4, 4), dtype=np.int16)`. -/
def zeroGrid : Grid := fun _ _ => 0

/-- Row `i` of the board as a list `[g i 0, g i 1, g i 2, g i 3]`. -/
def rowList (g : Grid) (i : Fin 4) : List ℤ := List.ofFn (fun j => g i j)

/-- Rebuild a board from a function giving each row as a (length-4) list. -/
def gridOfRows (f : Fin 4 → List ℤ) : Grid := fun i j => (f i).getD j.val 0

/-- Build a board from a row-major list of rows (for concrete test boards). -/
def listToGrid (rows : List (List ℤ)) : Grid :=
  fun i j => ((rows.getD i.val []).getD j.val 0)

/-- Stable left compaction of one row: the nonzero cells keep their order and
move to the front, zeros fill the rest (the LEFT case of `shift_grid`). -/
def shiftRowLeft (r : List ℤ) : List ℤ :=
  let nz := r.filter (fun x => decide (x ≠ 0))
  nz ++ List.replicate (4 - nz.length) 0

/-- Stable right compaction of one row (the RIGHT case of `shift_grid`). -/
def shiftRowRight (r : List ℤ) : List ℤ :=
  let nz := r.filter (fun x => decide (x ≠ 0))
  List.replicate (4 - nz.length) 0 ++ nz

/-- `shift_left`: compact every row to the left. -/
def shift_left (g : Grid) : Grid := gridOfRows (fun i => shiftRowLeft (rowList g i))

/-- `shift_right`: compact every row to the right. -/
def shift_right (g : Grid) : Grid := gridOfRows (fun i => shiftRowRight (rowList g i))

/-- `rotate_left`: `np.rot90(grid)`, counter-clockwise: `rot[i, j] = g[j, 3-i]`. -/
def rotate_left (g : Grid) : Grid := fun i j => g j i.rev

/-- `rotate_right`: `np.rot90(grid, k=3)`, clockwise: `rot[i, j] = g[3-j, i]`. -/
def rotate_right (g : Grid) : Grid := fun i j => g j.rev i

/-- One step of the `merge_same_neighbours` inner loop at column pair
`(j, k)` of a row, threading the running score: if the cells hold the same
nonzero value, the cell at `j` is doubled (with int16 wrap-around), the cell
at `k` is zeroed, and the doubled (stored) value is added to the score with
the int16 wrap-around of numpy's `self.score += self.grid[i, j]`. -/
def mergeAt (rd : List ℤ × ℤ) (j k : ℕ) : List ℤ × ℤ :=
  if rd.1.getD j 0 = rd.1.getD k 0 ∧ rd.1.getD j 0 ≠ 0 then
    ((rd.1.set j (wrap16 (rd.1.getD j 0 * 2))).set k 0,
      wrap16 (rd.2 + wrap16 (rd.1.getD j 0 * 2)))
  else rd

/-- The LEFT merge loop of `merge_same_neighbours` on one row, started with
the score accumulated so far: `for j in range(3): compare columns j and j+1`. -/
def mergeRowLeft (r : List ℤ) (sc : ℤ) : List ℤ × ℤ :=
  [0, 1, 2].foldl (fun rd j => mergeAt rd j (j + 1)) (r, sc)

/-- The RIGHT merge loop of `merge_same_neighbours` on one row, started with
the score accumulated so far:
`for j in range(3, 0, -1): compare columns j and j-1`. -/
def mergeRowRight (r : List ℤ) (sc : ℤ) : List ℤ × ℤ :=
  [3, 2, 1].foldl (fun rd j => mergeAt rd j (j - 1)) (r, sc)

/-- Variant of `mergeAt` that accumulates the merge values without the int16
wrap of the score cell.  It is not part of the embedded program: it defines
the ideal (unwrapped) score gain of a row, used to state when a real score
update does not overflow. -/
def mergeAtD (rd : List ℤ × ℤ) (j k : ℕ) : List ℤ × ℤ :=
  if rd.1.getD j 0 = rd.1.getD k 0 ∧ rd.1.getD j 0 ≠ 0 then
    ((rd.1.set j (wrap16 (rd.1.getD j 0 * 2))).set k 0,
      rd.2 + wrap16 (rd.1.getD j 0 * 2))
  else rd

/-- The ideal (unwrapped) total of the merge values a LEFT pass adds on one
row. -/
def mergeRowLeftD (r : List ℤ) : List ℤ × ℤ :=
  [0, 1, 2].foldl (fun rd j => mergeAtD rd j (j + 1)) (r, 0)

/-- The ideal (unwrapped) total of the merge values a RIGHT pass adds on one
row. -/
def mergeRowRightD (r : List ℤ) : List ℤ × ℤ :=
  [3, 2, 1].foldl (fun rd j => mergeAtD rd j (j - 1)) (r, 0)

/-- Direction of shifting, mirroring the `Direction` enum of the source. -/
inductive Direction where
  | LEFT
  | RIGHT
deriving DecidableEq

/-- Apply a per-row merge loop to every row, threading the (wrapping) score
through the rows in order as the source's double loop does.  The resulting
row contents are produced with score seed 0, which is sound because the
loop's grid writes never read the score (`mergeRow_fst_indep` below). -/
def mergeRows (mrow : List ℤ → ℤ → List ℤ × ℤ) (s : GridState) : GridState :=
  { grid := gridOfRows (fun i => (mrow (rowList s.grid i) 0).1)
    score := (List.finRange 4).foldl (fun sc i => (mrow (rowList s.grid i) sc).2) s.score }

/-- `merge_same_neighbours(direction)` on the whole state. -/
def merge_same_neighbours (d : Direction) (s : GridState) : GridState :=
  match d with
  | Direction.LEFT => mergeRows mergeRowLeft s
  | Direction.RIGHT => mergeRows mergeRowRight s

/-- `np.array_equal` on two boards. -/
def array_equal (g h : Grid) : Bool := decide (∀ i j, g i j = h i j)

/-- `move_left`: shift left, merge towards the left, shift left again; report
whether the board changed. -/
def move_left (s : GridState) : GridState × Bool :=
  let t1 : GridState := { grid := shift_left s.grid, score := s.score }
  let t2 : GridState := merge_same_neighbours Direction.LEFT t1
  let t3 : GridState := { grid := shift_left t2.grid, score := t2.score }
  (t3, !array_equal s.grid t3.grid)

/-- `move_right`: shift right, then merge towards the right; the source
performs no second shift here. -/
def move_right (s : GridState) : GridState × Bool :=
  let t1 : GridState := { grid := shift_right s.grid, score := s.score }
  let t2 : GridState := merge_same_neighbours Direction.RIGHT t1
  (t2, !array_equal s.grid t2.grid)

/-- `move_up`: rotate left, run `move_left`, rotate right. -/
def move_up (s : GridState) : GridState × Bool :=
  let m : GridState := (move_left { grid := rotate_left s.grid, score := s.score }).1
  let t : GridState := { grid := rotate_right m.grid, score := m.score }
  (t, !array_equal s.grid t.grid)

/-- `move_down`: rotate left, run `move_left`, shift right, rotate right. -/
def move_down (s : GridState) : GridState × Bool :=
  let m : GridState := (move_left { grid := rotate_left s.grid, score := s.score }).1
  let t : GridState := { grid := rotate_right (shift_right m.grid), score := m.score }
  (t, !array_equal s.grid t.grid)

/-- `move(direction)`: dictionary dispatch on the key, with the default
`lambda *args: False` leaving the state untouched. -/
def move (s : GridState) (direction : String) : GridState × Bool :=
  if direction = "w" then move_up s
  else if direction = "s" then move_down s
  else if direction = "a" then move_left s
  else if direction = "d" then move_right s
  else (s, false)

/-- The early-return condition of the `is_lose` double loop: some cell equals
its right or lower neighbour (the scan does not exclude zero cells). -/
def hasAdjacentEqual (g : Grid) : Bool :=
  (List.finRange 4).any (fun i =>
    (List.finRange 4).any (fun j =>
      (decide (j ≠ 3) && decide (g i j = g i (j + 1))) ||
      (decide (i ≠ 3) && decide (g i j = g (i + 1) j))))

/-- `0 in self.grid`. -/
def hasZero (g : Grid) : Bool :=
  (List.finRange 4).any (fun i => (List.finRange 4).any (fun j => decide (g i j = 0)))

/-- `is_lose`: scan all cells, returning false on any equal neighbour pair,
otherwise report whether the board is full. -/
def is_lose (g : Grid) : Bool :=
  if hasAdjacentEqual g then false else !hasZero g

/-- The row-major list of empty-cell coordinates,
`np.column_stack(np.where(grid == 0))`. -/
def emptyPositions (g : Grid) : List (Fin 4 × Fin 4) :=
  (List.finRange 4).flatMap (fun i =>
    ((List.finRange 4).filter (fun j => decide (g i j = 0))).map (fun j => (i, j)))

/-- Write value `v` into cell `p` of the board. -/
def setCell (g : Grid) (p : Fin 4 × Fin 4) (v : ℤ) : Grid :=
  fun i j => if i = p.1 ∧ j = p.2 then v else g i j

/-- `self.grid.sum()` (numpy promotes the int16 cells to a wide accumulator,
so the sum is exact). -/
def gridSum (g : Grid) : ℤ :=
  ((List.finRange 4).map (fun i => ((List.finRange 4).map (fun j => g i j)).sum)).sum

/-- The body of the `generate_twos` loop: for each chosen index into the
(fixed) list `empt` of initially-empty cells, write 2 if the current board sum
is 0 or 2, otherwise write the value drawn by `np.random.choice((2, 4))`;
`draws k` is the value the `k`-th iteration would draw. -/
def spawnLoop (empt : List (Fin 4 × Fin 4)) :
    Grid → List ℕ → (ℕ → ℤ) → ℕ → Grid
  | g, [], _, _ => g
  | g, ind :: rest, draws, k =>
      spawnLoop empt
        (setCell g (empt.getD ind (0, 0))
          (if gridSum g = 0 ∨ gridSum g = 2 then 2 else draws k))
        rest draws (k + 1)

/-- `generate_twos(number_of_twos)`.  `indices` models the distinct indices
returned by `np.random.choice(range(len(empt)), n, replace=False)`; that call
raises `ValueError` (caught: the whole method becomes a no-op) exactly when
`n` exceeds the number of empty cells. -/
def generate_twos (g : Grid) (number_of_twos : ℕ) (indices : List ℕ)
    (draws : ℕ → ℤ) : Grid :=
  if number_of_twos ≤ (emptyPositions g).length then
    spawnLoop (emptyPositions g) g indices draws 0
  else g

/-- Number of nonzero cells of the board. -/
def nonzeroCount (g : Grid) : ℕ :=
  (Finset.univ.filter (fun p : Fin 4 × Fin 4 => g p.1 p.2 ≠ 0)).card

/-- Merge pass that combines each adjacent equal pair of nonzero cells at most
once, leaving a zero in the consumed slot and resuming after the pair; a
merged result is structurally never merged again (spec step 2). -/
def mergeOnceZeros : List ℤ → List ℤ
  | a :: b :: rest =>
      if a = b ∧ a ≠ 0 then wrap16 (a * 2) :: 0 :: mergeOnceZeros rest
      else a :: mergeOnceZeros (b :: rest)
  | l => l

/-- Zero-free variant of the merge-once pass, acting on the list of nonzero
values of a compacted row. -/
def mergeOnceSpec : List ℤ → List ℤ
  | a :: b :: rest =>
      if a = b ∧ a ≠ 0 then wrap16 (a * 2) :: mergeOnceSpec rest
      else a :: mergeOnceSpec (b :: rest)
  | l => l

/-- Pad a row fragment with zeros on the right up to length 4. -/
def padTo4 (l : List ℤ) : List ℤ := l ++ List.replicate (4 - l.length) 0

/-- Modelled from the spec: the Right move as the specification states it for
one row — mirror the row, compact, merge adjacent equal pairs once, compact
again to close the gaps left by merges, and mirror back. -/
def specRightRow (r : List ℤ) : List ℤ :=
  (shiftRowLeft (mergeOnceZeros (shiftRowLeft r.reverse))).reverse

/-- Modelled from the spec: the Right move of the specification applied to
every row of the board. -/
def specMoveRight (g : Grid) : Grid :=
  gridOfRows (fun i => specRightRow (rowList g i))

/-- Every zero cell of a row lies to the left of every nonzero cell: once a
row cell is nonzero, all cells to its right are nonzero too. -/
def zerosLeftOfNonzeros (g : Grid) : Prop :=
  ∀ i j k : Fin 4, j ≤ k → g i j ≠ 0 → g i k ≠ 0

/-- The scan of `np.argmax`: keep the first index whose value is strictly
greater than the best seen so far. -/
def argmaxGo : List ℤ → ℤ → ℕ → ℕ → ℕ
  | [], _, bi, _ => bi
  | y :: ys, bv, bi, i => if bv < y then argmaxGo ys y i (i + 1) else argmaxGo ys bv bi (i + 1)

/-- `np.argmax` on a list of scores: the index of the first occurrence of the
maximum (0 on the empty list). -/
def np_argmax (l : List ℤ) : ℕ :=
  match l with
  | [] => 0
  | x :: xs => argmaxGo xs x 0 1

/-- The selection step of `MonteCarloTreeSearch.__call__`:
`return np.argmax(scores)` over the four candidates' aggregate scores. -/
def monteCarloSelect (scores : List ℤ) : ℕ := np_argmax scores

/-- One externally triggered operation on a game state: a `move(direction)`
call, or a `generate_twos` call with its random outcomes made explicit. -/
inductive Op where
  | mv (direction : String)
  | spawn (number_of_twos : ℕ) (indices : List ℕ) (draws : ℕ → ℤ)

/-- Apply one operation to the state (`generate_twos` never touches the
score). -/
def execOp (s : GridState) (op : Op) : GridState :=
  match op with
  | Op.mv d => (move s d).1
  | Op.spawn n indices draws => { grid := generate_twos s.grid n indices draws, score := s.score }

/-- Run a finite sequence of operations. -/
def runOps : GridState → List Op → GridState
  | s, [] => s
  | s, op :: rest => runOps (execOp s op) rest

/-- All cells are non-negative and small enough that doubling cannot overflow
the int16 cell: each value lies in `[0, 16384)`. -/
def cellsBounded (g : Grid) : Prop := ∀ i j, 0 ≤ g i j ∧ g i j < 16384

/-- The ideal (unwrapped) total score gain of a whole LEFT merge pass over an
already-compacted board. -/
def gainLeft (g : Grid) : ℤ :=
  ((List.finRange 4).map (fun i => (mergeRowLeftD (rowList g i)).2)).sum

/-- The ideal (unwrapped) total score gain of a whole RIGHT merge pass over an
already-compacted board. -/
def gainRight (g : Grid) : ℤ :=
  ((List.finRange 4).map (fun i => (mergeRowRightD (rowList g i)).2)).sum

/-- The ideal (unwrapped) score gain of one operation: the sum of all merge
values the operation fires (0 for spawns and invalid directions). -/
def opGain (s : GridState) (op : Op) : ℤ :=
  match op with
  | Op.mv d =>
      if d = "w" then gainLeft (shift_left (rotate_left s.grid))
      else if d = "s" then gainLeft (shift_left (rotate_left s.grid))
      else if d = "a" then gainLeft (shift_left s.grid)
      else if d = "d" then gainRight (shift_right s.grid)
      else 0
  | Op.spawn _ _ _ => 0

/-- Every state visited while running the operations has bounded cells, its
score is int16-representable, and no score update of the next operation
overflows int16 (the score plus the operation's ideal merge gain stays below
32768). -/
def safeTrace : GridState → List Op → Prop
  | _, [] => True
  | s, op :: rest =>
      cellsBounded s.grid ∧ -32768 ≤ s.score ∧ s.score + opGain s op < 32768 ∧
        safeTrace (execOp s op) rest

instance (g : Grid) : Decidable (cellsBounded g) := by
  unfold cellsBounded
  infer_instance

instance (g : Grid) : Decidable (zerosLeftOfNonzeros g) := by
  unfold zerosLeftOfNonzeros
  infer_instance

/-! ### Boards used in concrete scenarios -/

/-- The board of the spec's concrete Left-move scenario (also the board of the
repository's own `test_grid.py`). -/
def specBoard : Grid := listToGrid [[2, 0, 0, 4], [0, 2, 0, 0], [0, 2, 2, 0], [0, 0, 0, 2]]

/-- A board whose first row `[2, 2, 2, 0]` exposes the missing second
compaction in `move_right`. -/
def gapBoard : Grid := listToGrid [[2, 2, 2, 0], [0, 0, 0, 0], [0, 0, 0, 0], [0, 0, 0, 0]]

/-- A board of 2 and 4 tiles with exactly one empty cell. -/
def almostFullBoard : Grid :=
  listToGrid [[2, 4, 2, 4], [4, 2, 4, 2], [2, 4, 2, 4], [4, 2, 4, 0]]

/-- A board holding two adjacent 16384 tiles: the largest tile value whose
double no longer fits in an int16 cell. -/
def overflowBoard : Grid :=
  listToGrid [[16384, 16384, 0, 0], [0, 0, 0, 0], [0, 0, 0, 0], [0, 0, 0, 0]]

/-- A board of four identical rows `[2, 2, 2, 2]`. -/
def allTwosBoard : Grid := listToGrid [[2, 2, 2, 2], [2, 2, 2, 2], [2, 2, 2, 2], [2, 2, 2, 2]]

/-! ### Sanity checks of the embedding against the repository's unit tests
(`src/test/test_grid.py`). -/

example : ∀ i j, shift_left specBoard i j =
    listToGrid [[2, 4, 0, 0], [2, 0, 0, 0], [2, 2, 0, 0], [2, 0, 0, 0]] i j := by decide

example : ∀ i j, rotate_left specBoard i j =
    listToGrid [[4, 0, 0, 2], [0, 0, 2, 0], [0, 2, 2, 0], [2, 0, 0, 0]] i j := by decide

example : ∀ i j, (move_right ⟨specBoard, 0⟩).1.grid i j =
    listToGrid [[0, 0, 2, 4], [0, 0, 0, 2], [0, 0, 0, 4], [0, 0, 0, 2]] i j := by decide

example : ∀ i j, (move_up ⟨specBoard, 0⟩).1.grid i j =
    listToGrid [[2, 4, 2, 4], [0, 0, 0, 2], [0, 0, 0, 0], [0, 0, 0, 0]] i j := by decide

example : ∀ i j, (move_down ⟨specBoard, 0⟩).1.grid i j =
    listToGrid [[0, 0, 0, 0], [0, 0, 0, 0], [0, 0, 0, 4], [2, 4, 2, 2]] i j := by decide

example : is_lose specBoard = false := by decide

example : is_lose (listToGrid [[1, 2, 3, 4], [5, 6, 7, 8], [9, 10, 11, 12], [13, 14, 15, 16]]) =
    true := by decide

/-! ### Helper lemmas -/

lemma shiftRowLeft_length (r : List ℤ) (h : r.length = 4) : (shiftRowLeft r).length = 4 := by
  unfold shiftRowLeft
  simp only [List.length_append, List.length_replicate]
  have := List.length_filter_le (fun x => decide (x ≠ 0)) r
  omega

lemma shiftRowRight_length (r : List ℤ) (h : r.length = 4) : (shiftRowRight r).length = 4 := by
  unfold shiftRowRight
  simp only [List.length_append, List.length_replicate]
  have := List.length_filter_le (fun x => decide (x ≠ 0)) r
  omega

lemma mergeAt_length (rd : List ℤ × ℤ) (j k : ℕ) : (mergeAt rd j k).1.length = rd.1.length := by
  unfold mergeAt
  split <;> simp

lemma mergeRowLeft_length (r : List ℤ) (sc : ℤ) : (mergeRowLeft r sc).1.length = r.length := by
  simp [mergeRowLeft, List.foldl, mergeAt_length]

lemma mergeRowRight_length (r : List ℤ) (sc : ℤ) : (mergeRowRight r sc).1.length = r.length := by
  simp [mergeRowRight, List.foldl, mergeAt_length]

lemma mergeAtD_length (rd : List ℤ × ℤ) (j k : ℕ) : (mergeAtD rd j k).1.length = rd.1.length := by
  unfold mergeAtD
  split <;> simp

/-- The grid half of a merge step never reads the score half, so two merge
steps on the same row but different scores produce the same row. -/
lemma mergeAt_fst_eq (p q : List ℤ × ℤ) (h : p.1 = q.1) (j k : ℕ) :
    (mergeAt p j k).1 = (mergeAt q j k).1 := by
  unfold mergeAt
  rw [h]
  split <;> simp [h]

/-- The row a LEFT merge pass produces is independent of the score seed:
seeding the score with 0 in `mergeRows` is sound. -/
lemma mergeRow_fst_indep (r : List ℤ) (s t : ℤ) :
    (mergeRowLeft r s).1 = (mergeRowLeft r t).1 := by
  simp only [mergeRowLeft, List.foldl_cons, List.foldl_nil]
  apply mergeAt_fst_eq
  apply mergeAt_fst_eq
  apply mergeAt_fst_eq
  rfl

lemma rowList_length (g : Grid) (i : Fin 4) : (rowList g i).length = 4 := by
  simp [rowList]

lemma rowList_gridOfRows (f : Fin 4 → List ℤ) (i : Fin 4) (h : (f i).length = 4) :
    rowList (gridOfRows f) i = f i := by
  apply List.ext_getElem
  · simp [rowList, h]
  · intro n h1 h2
    have hn : n < (f i).length := by
      rw [h]
      simpa [rowList] using h1
    simp only [rowList, List.getElem_ofFn, gridOfRows]
    exact List.getD_eq_getElem (f i) 0 hn

lemma wrap16_ne_zero (x : ℤ) (h1 : 0 < x) (h2 : x < 32768) : wrap16 (x * 2) ≠ 0 := by
  unfold wrap16
  omega

lemma wrap16_id (x : ℤ) (h1 : 0 ≤ x) (h2 : x < 16384) : wrap16 (x * 2) = x * 2 := by
  unfold wrap16
  omega

set_option maxHeartbeats 1000000 in
lemma merge_shift_spec (nz : List ℤ) (h : ∀ x ∈ nz, x ≠ 0 ∧ 0 ≤ x ∧ x < 32768)
    (hlen : nz.length ≤ 4) :
    shiftRowLeft ((mergeRowLeft (nz ++ List.replicate (4 - nz.length) 0) 0).1) =
      padTo4 (mergeOnceSpec nz) := by
  rcases nz with _ | ⟨a, _ | ⟨b, _ | ⟨c, _ | ⟨d, _ | t⟩⟩⟩⟩
  · decide
  · obtain ⟨ha, ha0, ha1⟩ := h a (by simp)
    simp [mergeRowLeft, mergeAt, shiftRowLeft, padTo4, mergeOnceSpec, ha]
  · obtain ⟨ha, ha0, ha1⟩ := h a (by simp)
    obtain ⟨hb, hb0, hb1⟩ := h b (by simp)
    by_cases hab : a = b
    · subst hab
      have hm := wrap16_ne_zero a (by omega) (by omega)
      simp [mergeRowLeft, mergeAt, shiftRowLeft, padTo4, mergeOnceSpec, ha, hm]
    · simp [mergeRowLeft, mergeAt, shiftRowLeft, padTo4, mergeOnceSpec, ha, hb, hab]
  · obtain ⟨ha, ha0, ha1⟩ := h a (by simp)
    obtain ⟨hb, hb0, hb1⟩ := h b (by simp)
    obtain ⟨hc, hc0, hc1⟩ := h c (by simp)
    by_cases hab : a = b
    · subst hab
      have hm := wrap16_ne_zero a (by omega) (by omega)
      simp [mergeRowLeft, mergeAt, shiftRowLeft, padTo4, mergeOnceSpec, ha, hm, hc]
    · by_cases hbc : b = c
      · subst hbc
        have hm := wrap16_ne_zero b (by omega) (by omega)
        simp [mergeRowLeft, mergeAt, shiftRowLeft, padTo4, mergeOnceSpec, ha, hb, hab, hm]
      · simp [mergeRowLeft, mergeAt, shiftRowLeft, padTo4, mergeOnceSpec, ha, hb, hc, hab, hbc]
  · obtain ⟨ha, ha0, ha1⟩ := h a (by simp)
    obtain ⟨hb, hb0, hb1⟩ := h b (by simp)
    obtain ⟨hc, hc0, hc1⟩ := h c (by simp)
    obtain ⟨hd, hd0, hd1⟩ := h d (by simp)
    by_cases hab : a = b
    · subst hab
      have hm := wrap16_ne_zero a (by omega) (by omega)
      by_cases hcd : c = d
      · subst hcd
        have hm2 := wrap16_ne_zero c (by omega) (by omega)
        simp [mergeRowLeft, mergeAt, shiftRowLeft, padTo4, mergeOnceSpec, ha, hc, hm, hm2]
      · simp [mergeRowLeft, mergeAt, shiftRowLeft, padTo4, mergeOnceSpec, ha, hc, hd, hcd, hm]
    · by_cases hbc : b = c
      · subst hbc
        have hm := wrap16_ne_zero b (by omega) (by omega)
        simp [mergeRowLeft, mergeAt, shiftRowLeft, padTo4, mergeOnceSpec, ha, hb, hd, hab, hm]
      · by_cases hcd : c = d
        · subst hcd
          have hm := wrap16_ne_zero c (by omega) (by omega)
          simp [mergeRowLeft, mergeAt, shiftRowLeft, padTo4, mergeOnceSpec, ha, hb, hc, hab, hbc, hm]
        · simp [mergeRowLeft, mergeAt, shiftRowLeft, padTo4, mergeOnceSpec, ha, hb, hc, hd, hab,
            hbc, hcd]
  · simp at hlen

/-! ### Claims C1, C2, C4, C10 -/

lemma flag_false_iff (s : GridState) (t : GridState) :
    ((!array_equal s.grid t.grid) = false ↔ ∀ i j, t.grid i j = s.grid i j) := by
  simp only [array_equal, Bool.not_eq_false', decide_eq_true_eq]
  exact ⟨fun hp i j => (hp i j).symm, fun hq i j => (hq i j).symm⟩

/-- C4: for every board state and each of the four directions, the move
operation returns False if and only if every cell of the board is identical
before and after the move. -/
theorem c4_move_false_iff_unchanged (s : GridState) (d : String)
    (h : d = "w" ∨ d = "s" ∨ d = "a" ∨ d = "d") :
    (move s d).2 = false ↔ ∀ i j, (move s d).1.grid i j = s.grid i j := by
  rcases h with rfl | rfl | rfl | rfl
  · exact flag_false_iff s (move s "w").1
  · exact flag_false_iff s (move s "s").1
  · exact flag_false_iff s (move s "a").1
  · exact flag_false_iff s (move s "d").1

theorem c4_witness :
    ("a" = "w" ∨ "a" = "s" ∨ "a" = "a" ∨ "a" = "d") ∧
      ((move ⟨specBoard, 0⟩ "a").2 = false ↔
        ∀ i j, (move ⟨specBoard, 0⟩ "a").1.grid i j = specBoard i j) :=
  ⟨by decide, c4_move_false_iff_unchanged ⟨specBoard, 0⟩ "a" (by decide)⟩

/-- C10: for every state and every direction string other than "w", "s",
"a", "d", the public move operation returns False and leaves the state (all
cells and the score) unchanged. -/
theorem c10_invalid_direction_noop (s : GridState) (d : String)
    (h : ¬(d = "w" ∨ d = "s" ∨ d = "a" ∨ d = "d")) :
    move s d = (s, false) := by
  push_neg at h
  obtain ⟨h1, h2, h3, h4⟩ := h
  simp [move, h1, h2, h3, h4]

theorem c10_witness :
    ¬("x" = "w" ∨ "x" = "s" ∨ "x" = "a" ∨ "x" = "d") ∧
      move ⟨specBoard, 7⟩ "x" = (⟨specBoard, 7⟩, false) :=
  ⟨by decide, c10_invalid_direction_noop ⟨specBoard, 7⟩ "x" (by decide)⟩

/-- C2 counterexample: on the spec scenario board with initial score 0, the
Left move yields final score 4, not the claimed 0 + 8. -/
theorem c2_counterexample : (move_left ⟨specBoard, 0⟩).1.score ≠ 0 + 8 := by decide

/-- C2 (amended): applying the Left move to the scenario board with any
initial score `sc` yields the claimed board, and the final score is
`wrap16 (sc + 4)` — the single merge 2 + 2 of row 2 adds 4 through the int16
score accumulator — which equals `sc + 4` (and never `sc + 8`) whenever the
sum still fits in int16, in particular for every reachable score up to
32763. -/
theorem c2_left_scenario (sc : ℤ) :
    (∀ i j, (move_left ⟨specBoard, sc⟩).1.grid i j =
      listToGrid [[2, 4, 0, 0], [2, 0, 0, 0], [4, 0, 0, 0], [2, 0, 0, 0]] i j) ∧
    (move_left ⟨specBoard, sc⟩).1.score = wrap16 (sc + 4) ∧
    (-32768 ≤ sc → sc + 4 < 32768 → (move_left ⟨specBoard, sc⟩).1.score = sc + 4) := by
  have hs : (move_left ⟨specBoard, sc⟩).1.score = wrap16 (sc + 4) := by
    simp only [move_left, merge_same_neighbours, mergeRows]
    rw [show List.finRange 4 = [0, 1, 2, 3] from by decide]
    simp only [List.foldl_cons, List.foldl_nil]
    rw [show rowList (shift_left specBoard) 0 = [2, 4, 0, 0] from by decide]
    rw [show rowList (shift_left specBoard) 1 = [2, 0, 0, 0] from by decide]
    rw [show rowList (shift_left specBoard) 2 = [2, 2, 0, 0] from by decide]
    rw [show rowList (shift_left specBoard) 3 = [2, 0, 0, 0] from by decide]
    simp [mergeRowLeft, mergeAt, wrap16]
  refine ⟨?_, hs, ?_⟩
  · have hg : (move_left ⟨specBoard, sc⟩).1.grid = (move_left ⟨specBoard, (0 : ℤ)⟩).1.grid := rfl
    rw [hg]
    decide
  · intro h1 h2
    rw [hs]
    unfold wrap16
    omega

theorem c2_witness :
    (∀ i j, (move_left ⟨specBoard, 5⟩).1.grid i j =
      listToGrid [[2, 4, 0, 0], [2, 0, 0, 0], [4, 0, 0, 0], [2, 0, 0, 0]] i j) ∧
    (move_left ⟨specBoard, 5⟩).1.score = wrap16 (5 + 4) ∧
    (move_left ⟨specBoard, 5⟩).1.score = 5 + 4 :=
  ⟨(c2_left_scenario 5).1, (c2_left_scenario 5).2.1,
    (c2_left_scenario 5).2.2 (by decide) (by decide)⟩

/-- C1: the code bug at the failing input whose first row is `[2, 2, 2, 0]`:
`move_right` produces the row `[0, 2, 0, 4]`, which differs from the
specification's mirrored three-step Left algorithm (that gives `[0, 0, 2, 4]`)
and leaves a nonzero cell to the left of a zero cell, because the source
omits the final compaction after merging. -/
theorem c1_move_right_missing_compaction :
    (∀ i j, (move_right ⟨gapBoard, 0⟩).1.grid i j =
      listToGrid [[0, 2, 0, 4], [0, 0, 0, 0], [0, 0, 0, 0], [0, 0, 0, 0]] i j) ∧
    (∀ i j, specMoveRight gapBoard i j =
      listToGrid [[0, 0, 2, 4], [0, 0, 0, 0], [0, 0, 0, 0], [0, 0, 0, 0]] i j) ∧
    ¬(∀ i j, (move_right ⟨gapBoard, 0⟩).1.grid i j = specMoveRight gapBoard i j) ∧
    ¬zerosLeftOfNonzeros (move_right ⟨gapBoard, 0⟩).1.grid := by
  refine ⟨by decide, by decide, by decide, by decide⟩

/-! ### Claim C5 -/

lemma rowList_move_left_grid (g : Grid) (sc : ℤ) (i : Fin 4) :
    rowList ((move_left ⟨g, sc⟩).1.grid) i =
      shiftRowLeft ((mergeRowLeft (shiftRowLeft (rowList g i)) 0).1) := by
  simp only [move_left, merge_same_neighbours, mergeRows, shift_left]
  rw [rowList_gridOfRows _ _ (shiftRowLeft_length _ (rowList_length _ _))]
  rw [rowList_gridOfRows _ _ (by rw [mergeRowLeft_length, rowList_length])]
  rw [rowList_gridOfRows _ _ (shiftRowLeft_length _ (rowList_length _ _))]

/-- C5: in a single Left move each tile merges at most once: for every board
with int16-representable non-negative cells, the row action of `move_left`
equals the compact-then-merge-pairs-once specification (in which a merged
result is structurally never merged again), and in particular every row of
the all-`[2, 2, 2, 2]` board becomes `[4, 4, 0, 0]`, never `[8, 0, 0, 0]`. -/
theorem c5_merge_once :
    (∀ (g : Grid), (∀ i j, 0 ≤ g i j ∧ g i j < 32768) → ∀ (sc : ℤ) (i : Fin 4),
        rowList ((move_left ⟨g, sc⟩).1.grid) i =
          padTo4 (mergeOnceSpec ((rowList g i).filter (fun x => decide (x ≠ 0))))) ∧
    (∀ i j, (move_left ⟨allTwosBoard, 0⟩).1.grid i j =
      listToGrid [[4, 4, 0, 0], [4, 4, 0, 0], [4, 4, 0, 0], [4, 4, 0, 0]] i j) := by
  constructor
  · intro g hb sc i
    rw [rowList_move_left_grid]
    rw [show shiftRowLeft (rowList g i) =
        (rowList g i).filter (fun x => decide (x ≠ 0)) ++
          List.replicate (4 - ((rowList g i).filter (fun x => decide (x ≠ 0))).length) 0
      from rfl]
    apply merge_shift_spec
    · intro x hx
      have hx2 := List.mem_of_mem_filter hx
      have hxne : x ≠ 0 := by
        have := List.of_mem_filter hx
        simpa using this
      unfold rowList at hx2
      obtain ⟨j, hj⟩ := Set.mem_range.1 ((List.mem_ofFn _ _).1 hx2)
      exact ⟨hxne, hj ▸ (hb i j).1, hj ▸ (hb i j).2⟩
    · have := List.length_filter_le (fun x => decide (x ≠ 0)) (rowList g i)
      rw [rowList_length] at this
      exact this
  · decide

/-- Witness for C5 at the concrete scenario board. -/
theorem c5_witness :
    (∀ i j, 0 ≤ specBoard i j ∧ specBoard i j < 32768) ∧
      rowList ((move_left ⟨specBoard, 0⟩).1.grid) 0 =
        padTo4 (mergeOnceSpec ((rowList specBoard 0).filter (fun x => decide (x ≠ 0)))) :=
  ⟨by decide, c5_merge_once.1 specBoard (by decide) 0 0⟩

/-! ### Claim C7 -/

/-- C7: for every board, `is_lose` returns true if and only if no cell is
zero and no two horizontally- or vertically-adjacent cells hold equal values
(the adjacency scan indeed does not exclude zero-valued cells, which makes no
difference once the board is known to be full). -/
theorem c7_is_lose_iff (g : Grid) :
    is_lose g = true ↔
      ((∀ i j, g i j ≠ 0) ∧
        ∀ i j : Fin 4, (j ≠ 3 → g i j ≠ g i (j + 1)) ∧ (i ≠ 3 → g i j ≠ g (i + 1) j)) := by
  unfold is_lose
  by_cases hA : hasAdjacentEqual g = true
  · rw [if_pos hA]
    simp only [hasAdjacentEqual, List.any_eq_true, List.mem_finRange, true_and,
      Bool.or_eq_true, Bool.and_eq_true, decide_eq_true_eq] at hA
    constructor
    · intro hf
      exact absurd hf (by simp)
    · intro ⟨hz, hadj⟩
      obtain ⟨i, j, hc⟩ := hA
      rcases hc with ⟨hj, he⟩ | ⟨hi, he⟩
      · exact absurd he ((hadj i j).1 hj)
      · exact absurd he ((hadj i j).2 hi)
  · rw [if_neg hA]
    simp only [hasAdjacentEqual, List.any_eq_true, List.mem_finRange, true_and,
      Bool.or_eq_true, Bool.and_eq_true, decide_eq_true_eq, not_exists, not_or,
      not_and] at hA
    have hadj : ∀ i j : Fin 4, (j ≠ 3 → g i j ≠ g i (j + 1)) ∧ (i ≠ 3 → g i j ≠ g (i + 1) j) := by
      intro i j
      obtain ⟨h1, h2⟩ := hA i j
      exact ⟨h1, h2⟩
    have hz_iff : (!hasZero g) = true ↔ ∀ i j, g i j ≠ 0 := by
      simp [hasZero]
    rw [hz_iff]
    constructor
    · intro hnz
      exact ⟨hnz, hadj⟩
    · intro h
      exact h.1

/-- Witness for C7 at the full pairwise-distinct board used by the
repository's own tests. -/
theorem c7_witness :
    is_lose (listToGrid [[1, 2, 3, 4], [5, 6, 7, 8], [9, 10, 11, 12], [13, 14, 15, 16]]) =
        true ↔
      ((∀ i j, listToGrid [[1, 2, 3, 4], [5, 6, 7, 8], [9, 10, 11, 12], [13, 14, 15, 16]] i j ≠ 0) ∧
        ∀ i j : Fin 4,
          (j ≠ 3 → listToGrid [[1, 2, 3, 4], [5, 6, 7, 8], [9, 10, 11, 12], [13, 14, 15, 16]] i j ≠
            listToGrid [[1, 2, 3, 4], [5, 6, 7, 8], [9, 10, 11, 12], [13, 14, 15, 16]] i (j + 1)) ∧
          (i ≠ 3 → listToGrid [[1, 2, 3, 4], [5, 6, 7, 8], [9, 10, 11, 12], [13, 14, 15, 16]] i j ≠
            listToGrid [[1, 2, 3, 4], [5, 6, 7, 8], [9, 10, 11, 12], [13, 14, 15, 16]] (i + 1) j)) :=
  c7_is_lose_iff (listToGrid [[1, 2, 3, 4], [5, 6, 7, 8], [9, 10, 11, 12], [13, 14, 15, 16]])

/-! ### Claim C9 -/

/-- C9: the evaluator's selection (`np.argmax` over the four candidates'
aggregate scores) returns an index holding a maximal score, and every
earlier index holds a strictly smaller score (first-seen wins on ties). -/
theorem c9_select_first_max (s0 s1 s2 s3 : ℤ) :
    (∀ j, j < 4 → [s0, s1, s2, s3].getD j 0 ≤
      [s0, s1, s2, s3].getD (monteCarloSelect [s0, s1, s2, s3]) 0) ∧
    (∀ k, k < monteCarloSelect [s0, s1, s2, s3] →
      [s0, s1, s2, s3].getD k 0 < [s0, s1, s2, s3].getD (monteCarloSelect [s0, s1, s2, s3]) 0) := by
  by_cases h1 : s0 < s1
  · by_cases h2 : s1 < s2
    · by_cases h3 : s2 < s3
      · have e : monteCarloSelect [s0, s1, s2, s3] = 3 := by
          simp [monteCarloSelect, np_argmax, argmaxGo, h1, h2, h3]
        rw [e]
        refine ⟨?_, ?_⟩ <;> intro x hx <;> interval_cases x <;> simp [List.getD] <;> omega
      · have e : monteCarloSelect [s0, s1, s2, s3] = 2 := by
          simp [monteCarloSelect, np_argmax, argmaxGo, h1, h2, h3]
        rw [e]
        refine ⟨?_, ?_⟩ <;> intro x hx <;> interval_cases x <;> simp [List.getD] <;> omega
    · by_cases h3 : s1 < s3
      · have e : monteCarloSelect [s0, s1, s2, s3] = 3 := by
          simp [monteCarloSelect, np_argmax, argmaxGo, h1, h2, h3]
        rw [e]
        refine ⟨?_, ?_⟩ <;> intro x hx <;> interval_cases x <;> simp [List.getD] <;> omega
      · have e : monteCarloSelect [s0, s1, s2, s3] = 1 := by
          simp [monteCarloSelect, np_argmax, argmaxGo, h1, h2, h3]
        rw [e]
        refine ⟨?_, ?_⟩ <;> intro x hx <;> interval_cases x <;> simp [List.getD] <;> omega
  · by_cases h2 : s0 < s2
    · by_cases h3 : s2 < s3
      · have e : monteCarloSelect [s0, s1, s2, s3] = 3 := by
          simp [monteCarloSelect, np_argmax, argmaxGo, h1, h2, h3]
        rw [e]
        refine ⟨?_, ?_⟩ <;> intro x hx <;> interval_cases x <;> simp [List.getD] <;> omega
      · have e : monteCarloSelect [s0, s1, s2, s3] = 2 := by
          simp [monteCarloSelect, np_argmax, argmaxGo, h1, h2, h3]
        rw [e]
        refine ⟨?_, ?_⟩ <;> intro x hx <;> interval_cases x <;> simp [List.getD] <;> omega
    · by_cases h3 : s0 < s3
      · have e : monteCarloSelect [s0, s1, s2, s3] = 3 := by
          simp [monteCarloSelect, np_argmax, argmaxGo, h1, h2, h3]
        rw [e]
        refine ⟨?_, ?_⟩ <;> intro x hx <;> interval_cases x <;> simp [List.getD] <;> omega
      · have e : monteCarloSelect [s0, s1, s2, s3] = 0 := by
          simp [monteCarloSelect, np_argmax, argmaxGo, h1, h2, h3]
        rw [e]
        refine ⟨?_, ?_⟩ <;> intro x hx <;> interval_cases x <;> simp [List.getD] <;> omega

/-- Witness for C9 on the tied score list `[3, 7, 7, 2]`, where index 1 is
selected. -/
theorem c9_witness :
    monteCarloSelect [3, 7, 7, 2] = 1 ∧
      (0 : ℕ) < 4 ∧
      [(3 : ℤ), 7, 7, 2].getD 0 0 ≤ [(3 : ℤ), 7, 7, 2].getD (monteCarloSelect [3, 7, 7, 2]) 0 ∧
      [(3 : ℤ), 7, 7, 2].getD 0 0 < [(3 : ℤ), 7, 7, 2].getD (monteCarloSelect [3, 7, 7, 2]) 0 :=
  ⟨by decide, by decide, (c9_select_first_max 3 7 7 2).1 0 (by decide),
    (c9_select_first_max 3 7 7 2).2 0 (by decide)⟩

/-! ### Claim C3 -/

lemma count_setCell (g : Grid) (p : Fin 4 × Fin 4) (v : ℤ) (hv : v ≠ 0) (hp : g p.1 p.2 = 0) :
    nonzeroCount (setCell g p v) = nonzeroCount g + 1 := by
  unfold nonzeroCount
  have hins : Finset.univ.filter (fun q : Fin 4 × Fin 4 => setCell g p v q.1 q.2 ≠ 0) =
      insert p (Finset.univ.filter (fun q : Fin 4 × Fin 4 => g q.1 q.2 ≠ 0)) := by
    ext q
    by_cases hq : q = p
    · subst hq
      simp [setCell, hv]
    · have hne : ¬(q.1 = p.1 ∧ q.2 = p.2) := by
        intro he
        exact hq (Prod.ext he.1 he.2)
      simp [setCell, hne, hq]
  rw [hins, Finset.card_insert_of_not_mem]
  simp [hp]

lemma setCell_other (g : Grid) (p q : Fin 4 × Fin 4) (v : ℤ) (hq : q ≠ p) :
    setCell g p v q.1 q.2 = g q.1 q.2 := by
  have hne : ¬(q.1 = p.1 ∧ q.2 = p.2) := by
    intro he
    exact hq (Prod.ext he.1 he.2)
  simp [setCell, hne]

lemma emptyPositions_nodup (g : Grid) : (emptyPositions g).Nodup := by
  unfold emptyPositions
  rw [List.nodup_flatMap]
  constructor
  · intro i _
    apply List.Nodup.map
    · intro a b he
      simpa using he
    · exact (List.nodup_finRange 4).filter _
  · refine List.Pairwise.imp ?_ (List.nodup_finRange 4)
    intro i i' hne p hp hp'
    obtain ⟨j, _, he⟩ := List.mem_map.1 hp
    obtain ⟨j', _, he'⟩ := List.mem_map.1 hp'
    rw [← he] at he'
    apply hne
    exact (congrArg Prod.fst he').symm

lemma emptyPositions_mem (g : Grid) (p : Fin 4 × Fin 4) (h : p ∈ emptyPositions g) :
    g p.1 p.2 = 0 := by
  unfold emptyPositions at h
  obtain ⟨i, hi, hp⟩ := List.mem_flatMap.1 h
  obtain ⟨j, hj, he⟩ := List.mem_map.1 hp
  obtain ⟨hj1, hj2⟩ := List.mem_filter.1 hj
  rw [← he]
  exact of_decide_eq_true hj2

lemma getD_nodup_ne (l : List (Fin 4 × Fin 4)) (h : l.Nodup) (a b : ℕ)
    (ha : a < l.length) (hb : b < l.length) (hab : a ≠ b) :
    l.getD a (0, 0) ≠ l.getD b (0, 0) := by
  rw [List.getD_eq_getElem l (0, 0) ha, List.getD_eq_getElem l (0, 0) hb]
  intro he
  exact hab ((List.Nodup.getElem_inj_iff h).1 he)

lemma spawnLoop_count (empt : List (Fin 4 × Fin 4)) (hemp : empt.Nodup) (inds : List ℕ) :
    ∀ (g : Grid) (draws : ℕ → ℤ) (k : ℕ),
      inds.Nodup → (∀ a ∈ inds, a < empt.length) →
      (∀ a ∈ inds, g (empt.getD a (0, 0)).1 (empt.getD a (0, 0)).2 = 0) →
      (∀ m, draws m = 2 ∨ draws m = 4) →
      nonzeroCount (spawnLoop empt g inds draws k) = nonzeroCount g + inds.length := by
  induction inds with
  | nil =>
    intro g draws k _ _ _ _
    simp [spawnLoop]
  | cons a rest ih =>
    intro g draws k hnd hlt hz hdr
    have hv : (if gridSum g = 0 ∨ gridSum g = 2 then (2 : ℤ) else draws k) ≠ 0 := by
      split
      · norm_num
      · rcases hdr k with h | h <;> rw [h] <;> norm_num
    rw [spawnLoop]
    rw [ih (setCell g (empt.getD a (0, 0))
          (if gridSum g = 0 ∨ gridSum g = 2 then 2 else draws k)) draws (k + 1)
        (List.Nodup.of_cons hnd)
        (fun b hb => hlt b (List.mem_cons_of_mem a hb))
        ?_ hdr]
    · rw [count_setCell g _ _ hv (hz a (List.mem_cons_self a rest))]
      simp [Nat.add_assoc, Nat.add_comm 1]
    · intro b hb
      have hba : b ≠ a := by
        intro he
        subst he
        exact (List.nodup_cons.1 hnd).1 hb
      rw [setCell_other]
      · exact hz b (List.mem_cons_of_mem a hb)
      · exact getD_nodup_ne empt hemp b a (hlt b (List.mem_cons_of_mem a hb))
          (hlt a (List.mem_cons_self a rest)) hba

/-- C3 (amended): for every board, spawning with distinct in-range random
index choices and 2-or-4 draws increases the nonzero-cell count by exactly
`n` when `n` is at most the number of empty cells, and by 0 otherwise: when
`n` exceeds the number of empty cells, `np.random.choice(..., replace=False)`
raises `ValueError` and the caught exception makes the whole call a no-op, so
no cell at all is filled. -/
theorem c3_spawn_count (g : Grid) (n : ℕ) (indices : List ℕ) (draws : ℕ → ℤ)
    (hlen : indices.length = n) (hnd : indices.Nodup)
    (hlt : ∀ a ∈ indices, a < (emptyPositions g).length)
    (hdr : ∀ m, draws m = 2 ∨ draws m = 4) :
    nonzeroCount (generate_twos g n indices draws) =
      nonzeroCount g + (if n ≤ (emptyPositions g).length then n else 0) := by
  unfold generate_twos
  split
  · rw [spawnLoop_count (emptyPositions g) (emptyPositions_nodup g) indices g draws 0 hnd hlt
      (fun a ha => emptyPositions_mem g _ (by
        rw [List.getD_eq_getElem _ _ (hlt a ha)]
        exact List.getElem_mem _)) hdr]
    rw [hlen]
  · simp

/-- C3 counterexample: on a board with exactly one empty cell, spawning 2
tiles is a complete no-op, so the nonzero count does not grow by
`min 2 1 = 1` as the claim demands. -/
theorem c3_counterexample :
    nonzeroCount (generate_twos almostFullBoard 2 [0, 1] (fun _ => 2)) ≠
      nonzeroCount almostFullBoard + min 2 (emptyPositions almostFullBoard).length := by
  decide

/-- Witness for C3 on the empty board with two spawned tiles. -/
theorem c3_witness :
    ([0, 1] : List ℕ).Nodup ∧
      nonzeroCount (generate_twos zeroGrid 2 [0, 1] (fun _ => 2)) =
        nonzeroCount zeroGrid + (if 2 ≤ (emptyPositions zeroGrid).length then 2 else 0) :=
  ⟨by decide, c3_spawn_count zeroGrid 2 [0, 1] (fun _ => 2) rfl (by decide) (by decide)
    (fun _ => Or.inl rfl)⟩

/-! ### Claim C8 -/

/-- C8: during a spawn, an assignment made while the board sum is 0 or 2
writes the forced value 2, any other assignment writes the value drawn from
the pair `(2, 4)`, and consequently both tiles spawned on a fresh (all-zero)
board are 2: every cell of the resulting board is 0 or 2. -/
theorem c8_spawn_values :
    ∀ (g : Grid) (empt : List (Fin 4 × Fin 4)) (ind : ℕ) (rest : List ℕ)
      (draws : ℕ → ℤ) (k : ℕ) (i1 i2 : ℕ) (i j : Fin 4),
      ((gridSum g = 0 ∨ gridSum g = 2) →
        spawnLoop empt g (ind :: rest) draws k =
          spawnLoop empt (setCell g (empt.getD ind (0, 0)) 2) rest draws (k + 1)) ∧
      (¬(gridSum g = 0 ∨ gridSum g = 2) →
        spawnLoop empt g (ind :: rest) draws k =
          spawnLoop empt (setCell g (empt.getD ind (0, 0)) (draws k)) rest draws (k + 1)) ∧
      (generate_twos zeroGrid 2 [i1, i2] draws i j = 0 ∨
        generate_twos zeroGrid 2 [i1, i2] draws i j = 2) := by
  intro g empt ind rest draws k i1 i2 i j
  refine ⟨?_, ?_, ?_⟩
  · intro h
    rw [spawnLoop, if_pos h]
  · intro h
    rw [spawnLoop, if_neg h]
  · have hsum2 : ∀ p : Fin 4 × Fin 4, gridSum (setCell zeroGrid p 2) = 2 := by decide
    unfold generate_twos
    rw [if_pos (by decide : (2 : ℕ) ≤ (emptyPositions zeroGrid).length)]
    rw [spawnLoop, if_pos (Or.inl (by decide : gridSum zeroGrid = 0))]
    rw [spawnLoop, if_pos (Or.inr (hsum2 _))]
    rw [spawnLoop]
    simp only [setCell, zeroGrid]
    split_ifs <;> simp

/-- Witness for C8: a drawn assignment on the scenario board (sum 14) and the
fresh-board double spawn. -/
theorem c8_witness :
    (¬(gridSum specBoard = 0 ∨ gridSum specBoard = 2)) ∧
      (spawnLoop (emptyPositions specBoard) specBoard [0] (fun _ => 4) 0 =
        spawnLoop (emptyPositions specBoard)
          (setCell specBoard ((emptyPositions specBoard).getD 0 (0, 0)) 4) [] (fun _ => 4) 1) ∧
      (generate_twos zeroGrid 2 [0, 5] (fun _ => 4) 0 0 = 0 ∨
        generate_twos zeroGrid 2 [0, 5] (fun _ => 4) 0 0 = 2) :=
  ⟨by decide,
    (c8_spawn_values specBoard (emptyPositions specBoard) 0 [] (fun _ => 4) 0 0 5 0 0).2.1
      (by decide),
    (c8_spawn_values zeroGrid (emptyPositions zeroGrid) 0 [] (fun _ => 4) 0 0 5 0 0).2.2⟩

/-! ### Claim C6 -/

set_option maxHeartbeats 1000000 in
lemma mergeRowLeftD_delta_nonneg (a b c d : ℤ)
    (_ha : 0 ≤ a ∧ a < 16384) (hb : 0 ≤ b ∧ b < 16384) (hc : 0 ≤ c ∧ c < 16384)
    (hd : 0 ≤ d ∧ d < 16384) : 0 ≤ (mergeRowLeftD [a, b, c, d]).2 := by
  simp only [mergeRowLeftD, List.foldl_cons, List.foldl_nil, mergeAtD, wrap16]
  split_ifs <;> simp_all <;> omega

set_option maxHeartbeats 1000000 in
lemma mergeRowRightD_delta_nonneg (a b c d : ℤ)
    (ha : 0 ≤ a ∧ a < 16384) (hb : 0 ≤ b ∧ b < 16384) (hc : 0 ≤ c ∧ c < 16384)
    (_hd : 0 ≤ d ∧ d < 16384) : 0 ≤ (mergeRowRightD [a, b, c, d]).2 := by
  simp only [mergeRowRightD, List.foldl_cons, List.foldl_nil, mergeAtD, wrap16]
  split_ifs <;> simp_all <;> omega

set_option maxHeartbeats 1600000 in
lemma mergeRowLeft_wrap_eq (a b c d sc : ℤ)
    (ha : 0 ≤ a ∧ a < 16384) (hb : 0 ≤ b ∧ b < 16384) (hc : 0 ≤ c ∧ c < 16384)
    (hd : 0 ≤ d ∧ d < 16384) (hsc : -32768 ≤ sc)
    (hov : sc + (mergeRowLeftD [a, b, c, d]).2 < 32768) :
    (mergeRowLeft [a, b, c, d] sc).2 = sc + (mergeRowLeftD [a, b, c, d]).2 := by
  by_cases hab : a = b ∧ a ≠ 0
  · obtain ⟨heq, hne⟩ := hab
    subst heq
    by_cases hcd : c = d ∧ c ≠ 0
    · obtain ⟨heq2, hne2⟩ := hcd
      subst heq2
      simp [mergeRowLeft, mergeRowLeftD, mergeAt, mergeAtD, hne, hne2, wrap16] at hov ⊢
      omega
    · simp [mergeRowLeft, mergeRowLeftD, mergeAt, mergeAtD, hne, hcd, wrap16] at hov ⊢
      omega
  · by_cases hbc : b = c ∧ b ≠ 0
    · obtain ⟨heq, hne⟩ := hbc
      subst heq
      simp [mergeRowLeft, mergeRowLeftD, mergeAt, mergeAtD, hab, hne, wrap16] at hov ⊢
      omega
    · by_cases hcd : c = d ∧ c ≠ 0
      · obtain ⟨heq, hne⟩ := hcd
        subst heq
        simp [mergeRowLeft, mergeRowLeftD, mergeAt, mergeAtD, hab, hbc, hne, wrap16] at hov ⊢
        omega
      · simp [mergeRowLeft, mergeRowLeftD, mergeAt, mergeAtD, hab, hbc, hcd, wrap16] at hov ⊢

set_option maxHeartbeats 1600000 in
lemma mergeRowRight_wrap_eq (a b c d sc : ℤ)
    (ha : 0 ≤ a ∧ a < 16384) (hb : 0 ≤ b ∧ b < 16384) (hc : 0 ≤ c ∧ c < 16384)
    (hd : 0 ≤ d ∧ d < 16384) (hsc : -32768 ≤ sc)
    (hov : sc + (mergeRowRightD [a, b, c, d]).2 < 32768) :
    (mergeRowRight [a, b, c, d] sc).2 = sc + (mergeRowRightD [a, b, c, d]).2 := by
  by_cases hdc : d = c ∧ d ≠ 0
  · obtain ⟨heq, hne⟩ := hdc
    subst heq
    by_cases hba : b = a ∧ b ≠ 0
    · obtain ⟨heq2, hne2⟩ := hba
      subst heq2
      simp [mergeRowRight, mergeRowRightD, mergeAt, mergeAtD, hne, hne2, wrap16] at hov ⊢
      omega
    · simp [mergeRowRight, mergeRowRightD, mergeAt, mergeAtD, hne, hba, wrap16] at hov ⊢
      omega
  · by_cases hcb : c = b ∧ c ≠ 0
    · obtain ⟨heq, hne⟩ := hcb
      subst heq
      simp [mergeRowRight, mergeRowRightD, mergeAt, mergeAtD, hdc, hne, wrap16] at hov ⊢
      omega
    · by_cases hba : b = a ∧ b ≠ 0
      · obtain ⟨heq, hne⟩ := hba
        subst heq
        simp [mergeRowRight, mergeRowRightD, mergeAt, mergeAtD, hdc, hcb, hne, wrap16] at hov ⊢
        omega
      · simp [mergeRowRight, mergeRowRightD, mergeAt, mergeAtD, hdc, hcb, hba, wrap16] at hov ⊢

lemma list_four_of_length (r : List ℤ) (hlen : r.length = 4) :
    ∃ a b c d, r = [a, b, c, d] := by
  rcases r with _ | ⟨a, _ | ⟨b, _ | ⟨c, _ | ⟨d, t⟩⟩⟩⟩ <;> simp at hlen
  exact ⟨a, b, c, d, by rw [hlen]⟩

lemma shiftRow_mem_left (r : List ℤ) (x : ℤ) (hx : x ∈ shiftRowLeft r) : x ∈ r ∨ x = 0 := by
  unfold shiftRowLeft at hx
  rcases List.mem_append.1 hx with h | h
  · exact Or.inl (List.mem_of_mem_filter h)
  · exact Or.inr (List.eq_of_mem_replicate h)

lemma shiftRow_mem_right (r : List ℤ) (x : ℤ) (hx : x ∈ shiftRowRight r) : x ∈ r ∨ x = 0 := by
  unfold shiftRowRight at hx
  rcases List.mem_append.1 hx with h | h
  · exact Or.inr (List.eq_of_mem_replicate h)
  · exact Or.inl (List.mem_of_mem_filter h)

lemma rowList_mem_bounds (g : Grid) (hb : cellsBounded g) (i : Fin 4) (x : ℤ)
    (hx : x ∈ rowList g i) : 0 ≤ x ∧ x < 16384 := by
  unfold rowList at hx
  obtain ⟨j, hj⟩ := Set.mem_range.1 ((List.mem_ofFn _ _).1 hx)
  exact hj ▸ hb i j

lemma delta_nonneg_left (r : List ℤ) (hlen : r.length = 4)
    (hbr : ∀ x ∈ r, 0 ≤ x ∧ x < 16384) : 0 ≤ (mergeRowLeftD r).2 := by
  obtain ⟨a, b, c, d, rfl⟩ := list_four_of_length r hlen
  exact mergeRowLeftD_delta_nonneg a b c d (hbr a (by simp)) (hbr b (by simp))
    (hbr c (by simp)) (hbr d (by simp))

lemma delta_nonneg_right (r : List ℤ) (hlen : r.length = 4)
    (hbr : ∀ x ∈ r, 0 ≤ x ∧ x < 16384) : 0 ≤ (mergeRowRightD r).2 := by
  obtain ⟨a, b, c, d, rfl⟩ := list_four_of_length r hlen
  exact mergeRowRightD_delta_nonneg a b c d (hbr a (by simp)) (hbr b (by simp))
    (hbr c (by simp)) (hbr d (by simp))

lemma rowThreadLeft (r : List ℤ) (sc : ℤ) (hlen : r.length = 4)
    (hbr : ∀ x ∈ r, 0 ≤ x ∧ x < 16384) (hsc : -32768 ≤ sc)
    (hov : sc + (mergeRowLeftD r).2 < 32768) :
    (mergeRowLeft r sc).2 = sc + (mergeRowLeftD r).2 := by
  obtain ⟨a, b, c, d, rfl⟩ := list_four_of_length r hlen
  exact mergeRowLeft_wrap_eq a b c d sc (hbr a (by simp)) (hbr b (by simp))
    (hbr c (by simp)) (hbr d (by simp)) hsc hov

lemma rowThreadRight (r : List ℤ) (sc : ℤ) (hlen : r.length = 4)
    (hbr : ∀ x ∈ r, 0 ≤ x ∧ x < 16384) (hsc : -32768 ≤ sc)
    (hov : sc + (mergeRowRightD r).2 < 32768) :
    (mergeRowRight r sc).2 = sc + (mergeRowRightD r).2 := by
  obtain ⟨a, b, c, d, rfl⟩ := list_four_of_length r hlen
  exact mergeRowRight_wrap_eq a b c d sc (hbr a (by simp)) (hbr b (by simp))
    (hbr c (by simp)) (hbr d (by simp)) hsc hov

lemma gainLeft_expand (g : Grid) :
    gainLeft g = (mergeRowLeftD (rowList g 0)).2 + (mergeRowLeftD (rowList g 1)).2 +
      (mergeRowLeftD (rowList g 2)).2 + (mergeRowLeftD (rowList g 3)).2 := by
  unfold gainLeft
  rw [show List.finRange 4 = [0, 1, 2, 3] from by decide]
  simp only [List.map_cons, List.map_nil, List.sum_cons, List.sum_nil]
  ring

lemma gainRight_expand (g : Grid) :
    gainRight g = (mergeRowRightD (rowList g 0)).2 + (mergeRowRightD (rowList g 1)).2 +
      (mergeRowRightD (rowList g 2)).2 + (mergeRowRightD (rowList g 3)).2 := by
  unfold gainRight
  rw [show List.finRange 4 = [0, 1, 2, 3] from by decide]
  simp only [List.map_cons, List.map_nil, List.sum_cons, List.sum_nil]
  ring

lemma threadRows_left (g : Grid) (sc : ℤ)
    (hb : ∀ i, ∀ x ∈ rowList g i, 0 ≤ x ∧ x < 16384)
    (hsc : -32768 ≤ sc) (hov : sc + gainLeft g < 32768) :
    (List.finRange 4).foldl (fun c i => (mergeRowLeft (rowList g i) c).2) sc =
      sc + gainLeft g := by
  have hg := gainLeft_expand g
  have d0 := delta_nonneg_left (rowList g 0) (rowList_length g 0) (hb 0)
  have d1 := delta_nonneg_left (rowList g 1) (rowList_length g 1) (hb 1)
  have d2 := delta_nonneg_left (rowList g 2) (rowList_length g 2) (hb 2)
  have d3 := delta_nonneg_left (rowList g 3) (rowList_length g 3) (hb 3)
  rw [show List.finRange 4 = [0, 1, 2, 3] from by decide]
  simp only [List.foldl_cons, List.foldl_nil]
  rw [rowThreadLeft (rowList g 0) sc (rowList_length g 0) (hb 0) hsc (by omega)]
  rw [rowThreadLeft (rowList g 1) _ (rowList_length g 1) (hb 1) (by omega) (by omega)]
  rw [rowThreadLeft (rowList g 2) _ (rowList_length g 2) (hb 2) (by omega) (by omega)]
  rw [rowThreadLeft (rowList g 3) _ (rowList_length g 3) (hb 3) (by omega) (by omega)]
  omega

lemma threadRows_right (g : Grid) (sc : ℤ)
    (hb : ∀ i, ∀ x ∈ rowList g i, 0 ≤ x ∧ x < 16384)
    (hsc : -32768 ≤ sc) (hov : sc + gainRight g < 32768) :
    (List.finRange 4).foldl (fun c i => (mergeRowRight (rowList g i) c).2) sc =
      sc + gainRight g := by
  have hg := gainRight_expand g
  have d0 := delta_nonneg_right (rowList g 0) (rowList_length g 0) (hb 0)
  have d1 := delta_nonneg_right (rowList g 1) (rowList_length g 1) (hb 1)
  have d2 := delta_nonneg_right (rowList g 2) (rowList_length g 2) (hb 2)
  have d3 := delta_nonneg_right (rowList g 3) (rowList_length g 3) (hb 3)
  rw [show List.finRange 4 = [0, 1, 2, 3] from by decide]
  simp only [List.foldl_cons, List.foldl_nil]
  rw [rowThreadRight (rowList g 0) sc (rowList_length g 0) (hb 0) hsc (by omega)]
  rw [rowThreadRight (rowList g 1) _ (rowList_length g 1) (hb 1) (by omega) (by omega)]
  rw [rowThreadRight (rowList g 2) _ (rowList_length g 2) (hb 2) (by omega) (by omega)]
  rw [rowThreadRight (rowList g 3) _ (rowList_length g 3) (hb 3) (by omega) (by omega)]
  omega

lemma shifted_rows_bounded_left (g : Grid) (hb : cellsBounded g) :
    ∀ i, ∀ x ∈ rowList (shift_left g) i, 0 ≤ x ∧ x < 16384 := by
  intro i x hx
  have hrow : rowList (shift_left g) i = shiftRowLeft (rowList g i) :=
    rowList_gridOfRows _ _ (shiftRowLeft_length _ (rowList_length _ _))
  rw [hrow] at hx
  rcases shiftRow_mem_left _ _ hx with h | rfl
  · exact rowList_mem_bounds g hb i x h
  · exact ⟨le_refl 0, by norm_num⟩

lemma shifted_rows_bounded_right (g : Grid) (hb : cellsBounded g) :
    ∀ i, ∀ x ∈ rowList (shift_right g) i, 0 ≤ x ∧ x < 16384 := by
  intro i x hx
  have hrow : rowList (shift_right g) i = shiftRowRight (rowList g i) :=
    rowList_gridOfRows _ _ (shiftRowRight_length _ (rowList_length _ _))
  rw [hrow] at hx
  rcases shiftRow_mem_right _ _ hx with h | rfl
  · exact rowList_mem_bounds g hb i x h
  · exact ⟨le_refl 0, by norm_num⟩

lemma gainLeft_nonneg (g : Grid) (hb : ∀ i, ∀ x ∈ rowList g i, 0 ≤ x ∧ x < 16384) :
    0 ≤ gainLeft g := by
  unfold gainLeft
  apply List.sum_nonneg
  intro x hx
  obtain ⟨i, _, rfl⟩ := List.mem_map.1 hx
  exact delta_nonneg_left _ (rowList_length g i) (hb i)

lemma gainRight_nonneg (g : Grid) (hb : ∀ i, ∀ x ∈ rowList g i, 0 ≤ x ∧ x < 16384) :
    0 ≤ gainRight g := by
  unfold gainRight
  apply List.sum_nonneg
  intro x hx
  obtain ⟨i, _, rfl⟩ := List.mem_map.1 hx
  exact delta_nonneg_right _ (rowList_length g i) (hb i)

lemma cellsBounded_rotate_left (g : Grid) (hb : cellsBounded g) :
    cellsBounded (rotate_left g) := by
  intro i j
  exact hb j i.rev

lemma move_left_score_eq (s : GridState) (hb : cellsBounded s.grid)
    (hsc : -32768 ≤ s.score) (hov : s.score + gainLeft (shift_left s.grid) < 32768) :
    (move_left s).1.score = s.score + gainLeft (shift_left s.grid) := by
  simp only [move_left, merge_same_neighbours, mergeRows]
  exact threadRows_left (shift_left s.grid) s.score (shifted_rows_bounded_left _ hb) hsc hov

lemma move_right_score_eq (s : GridState) (hb : cellsBounded s.grid)
    (hsc : -32768 ≤ s.score) (hov : s.score + gainRight (shift_right s.grid) < 32768) :
    (move_right s).1.score = s.score + gainRight (shift_right s.grid) := by
  simp only [move_right, merge_same_neighbours, mergeRows]
  exact threadRows_right (shift_right s.grid) s.score (shifted_rows_bounded_right _ hb) hsc hov

lemma move_up_score_eq (s : GridState) (hb : cellsBounded s.grid)
    (hsc : -32768 ≤ s.score)
    (hov : s.score + gainLeft (shift_left (rotate_left s.grid)) < 32768) :
    (move_up s).1.score = s.score + gainLeft (shift_left (rotate_left s.grid)) := by
  simp only [move_up]
  exact move_left_score_eq ⟨rotate_left s.grid, s.score⟩ (cellsBounded_rotate_left _ hb) hsc hov

lemma move_down_score_eq (s : GridState) (hb : cellsBounded s.grid)
    (hsc : -32768 ≤ s.score)
    (hov : s.score + gainLeft (shift_left (rotate_left s.grid)) < 32768) :
    (move_down s).1.score = s.score + gainLeft (shift_left (rotate_left s.grid)) := by
  simp only [move_down]
  exact move_left_score_eq ⟨rotate_left s.grid, s.score⟩ (cellsBounded_rotate_left _ hb) hsc hov

lemma execOp_score_eq (s : GridState) (op : Op) (hb : cellsBounded s.grid)
    (hsc : -32768 ≤ s.score) (hov : s.score + opGain s op < 32768) :
    (execOp s op).score = s.score + opGain s op ∧ 0 ≤ opGain s op := by
  cases op with
  | mv d =>
    simp only [execOp, opGain, move] at hov ⊢
    split_ifs at hov ⊢
    · exact ⟨move_up_score_eq s hb hsc hov,
        gainLeft_nonneg _ (shifted_rows_bounded_left _ (cellsBounded_rotate_left _ hb))⟩
    · exact ⟨move_down_score_eq s hb hsc hov,
        gainLeft_nonneg _ (shifted_rows_bounded_left _ (cellsBounded_rotate_left _ hb))⟩
    · exact ⟨move_left_score_eq s hb hsc hov, gainLeft_nonneg _ (shifted_rows_bounded_left _ hb)⟩
    · exact ⟨move_right_score_eq s hb hsc hov, gainRight_nonneg _ (shifted_rows_bounded_right _ hb)⟩
    · exact ⟨by simp, le_refl 0⟩
  | spawn n indices draws =>
    simp only [execOp, opGain] at hov ⊢
    exact ⟨by omega, le_refl 0⟩

/-- C6 (amended): along any finite sequence of move and spawn operations
during which every visited board keeps all cells in `[0, 16384)` (so no int16
cell doubling overflows), the score is int16-representable, and no score
update overflows int16 (the score plus the operation's total merge gain stays
below 32768), the score never decreases; and a merge firing on cells of value
`v` with `0 < v < 16384` updates the score accumulator `sc` to exactly
`sc + 2 * v` whenever that sum still fits in int16.  (Both provisos are
necessary: merging two 16384 tiles wraps the cell to -32768 and the score
drops, see the counterexample; and a score crossing 32767 wraps to -32768
even with small cells.) -/
theorem c6_score_monotone :
    (∀ (s : GridState) (ops : List Op), safeTrace s ops → s.score ≤ (runOps s ops).score) ∧
    (∀ (r : List ℤ) (sc : ℤ) (j k : ℕ) (v : ℤ),
      r.getD j 0 = v → r.getD k 0 = v → 0 < v → v < 16384 →
      -32768 ≤ sc → sc + 2 * v < 32768 →
      (mergeAt (r, sc) j k).2 = sc + 2 * v) := by
  constructor
  · intro s ops
    induction ops generalizing s with
    | nil =>
      intro _
      exact le_refl _
    | cons op rest ih =>
      intro hst
      obtain ⟨hb, hsc, hov, ht⟩ := hst
      obtain ⟨heq, hnn⟩ := execOp_score_eq s op hb hsc hov
      show s.score ≤ (runOps (execOp s op) rest).score
      calc s.score ≤ (execOp s op).score := by rw [heq]; omega
        _ ≤ (runOps (execOp s op) rest).score := ih (execOp s op) ht
  · intro r sc j k v hj hk hv0 hv1 hsc hov
    unfold mergeAt
    rw [if_pos ⟨by rw [hj, hk], by rw [hj]; omega⟩]
    show wrap16 (sc + wrap16 (r.getD j 0 * 2)) = sc + 2 * v
    rw [hj, wrap16_id v (by omega) hv1]
    unfold wrap16
    omega

/-- Sanity check of the int16 score accumulator: even with small cells, a
merge that pushes the score past 32767 wraps it to -32768, exactly as
`self.score += self.grid[i, j]` does on np.int16 values. -/
example :
    (move_left ⟨listToGrid [[2, 2, 0, 0], [0, 0, 0, 0], [0, 0, 0, 0], [0, 0, 0, 0]],
      32764⟩).1.score = -32768 := by decide

/-- C6 counterexample: merging the two adjacent 16384 tiles of
`overflowBoard` by a Left move wraps the merged int16 cell to -32768 and
drops the score from 0 to -32768, so the score is not monotone and the merge
of two tiles of value v = 16384 does not add 2v = 32768. -/
theorem c6_counterexample :
    (runOps ⟨overflowBoard, 0⟩ [Op.mv "a"]).score = -32768 ∧
      (runOps ⟨overflowBoard, 0⟩ [Op.mv "a"]).score < (⟨overflowBoard, 0⟩ : GridState).score := by
  exact ⟨by decide, by decide⟩

/-- Witness for C6 on the scenario board with a single Left move. -/
theorem c6_witness :
    safeTrace ⟨specBoard, 0⟩ [Op.mv "a"] ∧
      (⟨specBoard, 0⟩ : GridState).score ≤ (runOps ⟨specBoard, 0⟩ [Op.mv "a"]).score := by
  have hst : safeTrace ⟨specBoard, 0⟩ [Op.mv "a"] :=
    ⟨by decide, by decide, by decide, trivial⟩
  exact ⟨hst, c6_score_monotone.1 _ _ hst⟩

end Pygame2048
